import Mathlib

set_option maxRecDepth 16384
set_option maxHeartbeats 1000000

/-! Verification development for the knowledge-graph extraction app
(src/app.py).  The Python program is shallowly embedded:

* `build_graph` (app.py lines 71-84) over a model of `networkx.DiGraph`
  (insertion-ordered node and edge association structures with
  update-in-place merge semantics);
* `parse_relations` (app.py lines 51-68) over a model of the compiled
  regex search (including the fact that line 55 passes `re.DOTALL`,
  whose integer value is 16, as the `pos` argument of
  `re.Pattern.search`) and of `json.loads` restricted to the
  string-valued JSON subset that the data model (spec section 3)
  uses;
* the module top-level "Generate Knowledge Graph" button handler
  (app.py lines 148-161), with the external Gemini call modelled as the
  the `response` input of the handler.
-/

/-- Attribute dictionaries (Python keyword-argument dicts):
insertion-ordered string-to-string association lists; updating an
existing key replaces its value in place, a new key is appended. -/
abbrev Attrs := List (String × String)

/-- Python dict lookup (first entry wins; the model keeps keys unique
by construction of `setAttr`). -/
def getAttr (a : Attrs) (k : String) : Option String :=
  (a.find? (fun kv => kv.1 == k)).map Prod.snd

/-- Python dict single-key assignment. -/
def setAttr (a : Attrs) (k v : String) : Attrs :=
  if a.any (fun kv => kv.1 == k) then
    a.map (fun kv => if kv.1 == k then (kv.1, v) else kv)
  else a ++ [(k, v)]

/-- Python dict.update. -/
def updateAttrs (a : Attrs) (upd : Attrs) : Attrs :=
  upd.foldl (fun acc kv => setAttr acc kv.1 kv.2) a

/-- Model of `networkx.DiGraph`: insertion-ordered nodes keyed by their
name string and at most one directed edge per ordered node pair,
insertion-ordered. -/
structure Graph where
  nodes : List (String × Attrs)
  edges : List (String × String × Attrs)
deriving DecidableEq, Repr

def Graph.empty : Graph := Graph.mk [] []

/-- networkx `DiGraph.add_node`: update the attributes of an existing
node in place (dict.update), else append a fresh node. -/
def addNode (g : Graph) (name : String) (a : Attrs) : Graph :=
  if g.nodes.any (fun p => p.1 == name) then
    Graph.mk
      (g.nodes.map (fun p => if p.1 == name then (p.1, updateAttrs p.2 a) else p))
      g.edges
  else
    Graph.mk (g.nodes ++ [(name, a)]) g.edges

/-- networkx adds a missing endpoint of `add_edge` as a node with no
attributes; an existing node is left untouched. -/
def ensureNode (g : Graph) (n : String) : Graph :=
  if g.nodes.any (fun p => p.1 == n) then g
  else Graph.mk (g.nodes ++ [(n, [])]) g.edges

/-- Update the (u,v) edge attributes in place if that edge exists, else
append the edge. -/
def updateEdgeIn (g : Graph) (u v : String) (a : Attrs) : Graph :=
  if g.edges.any (fun e => e.1 == u && e.2.1 == v) then
    Graph.mk g.nodes
      (g.edges.map (fun e =>
        if e.1 == u && e.2.1 == v then (e.1, e.2.1, updateAttrs e.2.2 a) else e))
  else
    Graph.mk g.nodes (g.edges ++ [(u, v, a)])

/-- networkx `DiGraph.add_edge`: silently create missing endpoint nodes
with no attributes, then update the (u,v) edge attributes in place if
that edge exists, else append it.  A `DiGraph` holds at most one edge
per ordered pair, so re-adding an edge merges attributes instead of
creating a parallel edge. -/
def addEdge (g : Graph) (u v : String) (a : Attrs) : Graph :=
  updateEdgeIn (ensureNode (ensureNode g u) v) u v a

/-- A decoded triple object: a Python dict with the six string-valued
fields of the data model; `none` models an absent key. -/
structure TripleDict where
  subject : Option String
  subject_type : Option String
  relation : Option String
  object : Option String
  object_type : Option String
  context : Option String
deriving DecidableEq, Repr

/-- One iteration of the `build_graph` loop (app.py lines 73-83).  The
required keys subject, object, relation are read with `[]` indexing, in
that source order; a missing key raises `KeyError`, modelled as
`Except.error`.  The optional keys use `.get` with defaults and cannot
fail. -/
def buildStep (g : Graph) (t : TripleDict) : Except String Graph :=
  match t.subject with
  | none => Except.error "KeyError: subject"
  | some subj =>
    match t.object with
    | none => Except.error "KeyError: object"
    | some obj =>
      match t.relation with
      | none => Except.error "KeyError: relation"
      | some rel =>
        let subj_type := t.subject_type.getD "Entity"
        let obj_type := t.object_type.getD "Entity"
        let context := t.context.getD ""
        let g1 := addNode g subj
          [("title", subj_type ++ ": " ++ subj), ("group", subj_type)]
        let g2 := addNode g1 obj
          [("title", obj_type ++ ": " ++ obj), ("group", obj_type)]
        Except.ok (addEdge g2 subj obj [("label", rel), ("title", context)])

def buildGo : List TripleDict → Graph → Except String Graph
  | [], g => Except.ok g
  | t :: rest, g =>
    match buildStep g t with
    | Except.ok g2 => buildGo rest g2
    | Except.error e => Except.error e

/-- `build_graph` (app.py lines 71-84). -/
def build_graph (triples : List TripleDict) : Except String Graph :=
  buildGo triples Graph.empty

/-- Node names in insertion order. -/
def nodeNames (g : Graph) : List String := g.nodes.map Prod.fst

/-- The `group` attribute (the node type) of the named node. -/
def nodeGroup (g : Graph) (name : String) : Option String :=
  match g.nodes.find? (fun p => p.1 == name) with
  | some p => getAttr p.2 "group"
  | none => none

/-- Ordered (source, target) pairs of the edges. -/
def edgeKeys (g : Graph) : List (String × String) :=
  g.edges.map (fun e => (e.1, e.2.1))

/-- The (label, title) attributes of the u-to-v edge, if present. -/
def edgeData (g : Graph) (u v : String) : Option (Option String × Option String) :=
  (g.edges.find? (fun e => e.1 == u && e.2.1 == v)).map
    (fun e => (getAttr e.2.2 "label", getAttr e.2.2 "title"))

/-- The precondition under which every dict access in `build_graph`
succeeds: each input dict carries the three required keys. -/
abbrev requiredPre (ts : List TripleDict) : Prop :=
  ∀ t ∈ ts, t.subject.isSome = true ∧ t.object.isSome = true ∧ t.relation.isSome = true

deriving instance DecidableEq for Except

/-- Every string occurring as a subject or an object of some triple. -/
def mentionedNames (ts : List TripleDict) : List String :=
  ts.flatMap (fun t => t.subject.toList ++ t.object.toList)

/-- The (name, type) writes one triple performs on node attributes, in
program order: the subject node is written first, then the object node. -/
def groupWrites (t : TripleDict) : List (String × String) :=
  [(t.subject.getD "", t.subject_type.getD "Entity"),
   (t.object.getD "", t.object_type.getD "Entity")]

/-- The last type written for `name` over the whole triple list
(last-write-wins reference semantics). -/
def lastGroupWrite (ts : List TripleDict) (name : String) : Option String :=
  (((ts.flatMap groupWrites).reverse).find? (fun p => p.1 == name)).map Prod.snd

/-- Ordered (subject, object) pair written by each triple, in input
order (only meaningful under `requiredPre`). -/
def edgePairs (ts : List TripleDict) : List (String × String) :=
  ts.map (fun t => (t.subject.getD "", t.object.getD ""))

/-! The response parser (app.py lines 51-68).  The regex on line 54 is
the raw pattern bracket `\s*` (noncapturing: brace `.*?` brace `\s*`
comma? `\s*`)* bracket.  Line 55 calls `pattern.search(response_text,
re.DOTALL)` on the compiled pattern object, whose second positional
parameter is `pos`, not `flags`; `re.DOTALL` has integer value 16, so
the scan starts at character index 16 and the pattern itself was
compiled without DOTALL (its `.` therefore does not match a newline). -/

/-- Python `\s` on ASCII text: space, tab, newline, carriage return,
vertical tab, form feed. -/
def isPyWS (c : Char) : Bool :=
  c = ' ' || c = '\t' || c = '\n' || c = '\r' || c = '\x0b' || c = '\x0c'

def skipWS : List Char → List Char
  | [] => []
  | c :: rest => if isPyWS c then skipWS rest else c :: rest

/-- Backtracking positions inside the pattern: `lazyBody` is inside a
brace group consuming `.*?`; `afterGroup` is after a closing brace,
handling `\s* ,? \s*`; `groupOrEnd` expects either the next brace group
or the closing bracket. -/
inductive RMode where
  | lazyBody : RMode
  | afterGroup : RMode
  | groupOrEnd : RMode
deriving DecidableEq, Repr

/-- Backtracking matcher for the compiled pattern, with Python
preference order: the lazy `.*?` tries the shortest extension first
(closing at each brace and only extending past it when the rest of the
pattern fails), the group star is greedy, and `\s*` and `,?` are
deterministic here because whitespace and comma can never match the
literal that follows them.  Returns the suffix after the match.  The
fuel only bounds backtracking; callers pass a quadratic bound that the
search can never exhaust. -/
def reRun (fuel : Nat) (mode : RMode) (cs : List Char) : Option (List Char) :=
  match fuel with
  | 0 => none
  | f + 1 =>
    match mode with
    | RMode.groupOrEnd =>
      match cs with
      | '\x7b' :: r => reRun f RMode.lazyBody r
      | ']' :: r => some r
      | _ => none
    | RMode.afterGroup =>
      match skipWS cs with
      | ',' :: r2 => reRun f RMode.groupOrEnd (skipWS r2)
      | r1 => reRun f RMode.groupOrEnd r1
    | RMode.lazyBody =>
      match cs with
      | [] => none
      | c :: rest =>
        if c = '\x7d' then
          match reRun f RMode.afterGroup rest with
          | some r => some r
          | none => reRun f RMode.lazyBody rest
        else if c = '\n' then none
        else reRun f RMode.lazyBody rest

/-- Try to match the pattern at the head of `cs`: an opening bracket,
optional whitespace, then groups or the closing bracket. -/
def reMatchAt (cs : List Char) : Option (List Char) :=
  match cs with
  | '[' :: r => reRun ((cs.length + 2) * (cs.length + 2)) RMode.groupOrEnd (skipWS r)
  | _ => none

/-- Leftmost search: try each successive start position; on success
return the matched span (`match.group()`). -/
def reSearchGo : List Char → Option (List Char)
  | [] => none
  | c :: rest =>
    match reMatchAt (c :: rest) with
    | some rem => some ((c :: rest).take ((c :: rest).length - rem.length))
    | none => reSearchGo rest

/-- `pattern.search(response_text, re.DOTALL)` from app.py line 55:
`re.DOTALL` (= 16) is passed as the `pos` argument, so matching starts
at character index 16 (and `search` returns no match when the string is
shorter than that). -/
def reSearch16 (s : List Char) : Option (List Char) :=
  reSearchGo (s.drop 16)

/-! A model of `json.loads`, restricted to the string-valued JSON
subset used by the triple schema of spec section 3 (strings, arrays,
objects; the schema has no numbers, booleans or null, and no \uXXXX
escapes). -/

/-- JSON whitespace. -/
def isJWS (c : Char) : Bool :=
  c = ' ' || c = '\t' || c = '\n' || c = '\r'

def skipJWS : List Char → List Char
  | [] => []
  | c :: rest => if isJWS c then skipJWS rest else c :: rest

/-- Decoded JSON values of the modelled subset. -/
inductive JVal where
  | jstr : String → JVal
  | jarr : List JVal → JVal
  | jobj : List (String × JVal) → JVal

/-- Single-character JSON escapes. -/
def escChar (c : Char) : Option Char :=
  if c = '"' then some '"'
  else if c = '\\' then some '\\'
  else if c = '/' then some '/'
  else if c = 'n' then some '\n'
  else if c = 't' then some '\t'
  else if c = 'r' then some '\r'
  else if c = 'b' then some '\x08'
  else if c = 'f' then some '\x0c'
  else none

/-- Parse the remainder of a JSON string literal, after its opening
quote; unescaped control characters are rejected as json.loads does. -/
def parseJStr : List Char → Except String (String × List Char)
  | [] => Except.error "Unterminated string"
  | '"' :: rest => Except.ok ("", rest)
  | '\\' :: [] => Except.error "Unterminated string"
  | '\\' :: e :: rest2 =>
    match escChar e with
    | some ec =>
      match parseJStr rest2 with
      | Except.ok (s, r2) => Except.ok (String.mk (ec :: s.data), r2)
      | Except.error msg => Except.error msg
    | none => Except.error "Invalid escape"
  | c :: rest =>
    if c.toNat < 32 then Except.error "Invalid control character"
    else
      match parseJStr rest with
      | Except.ok (s, r2) => Except.ok (String.mk (c :: s.data), r2)
      | Except.error msg => Except.error msg

/-- Enclosing-container frames of the JSON machine: an array with its
elements so far (reversed), or an object with its members so far and
the key whose value is being parsed. -/
inductive JFrame where
  | farr : List JVal → JFrame
  | fobj : List (String × JVal) → String → JFrame

/-- Machine states: parse one value at the current position, or fold a
finished value into the enclosing frame. -/
inductive JState where
  | expectVal : List Char → List JFrame → JState
  | haveVal : JVal → List Char → List JFrame → JState

/-- Stack machine for the JSON subset.  Every transition consumes at
least one character, so fuel `length + 2` can never run out. -/
def jsonMach (fuel : Nat) (st : JState) : Except String (JVal × List Char) :=
  match fuel with
  | 0 => Except.error "Parser fuel exhausted"
  | f + 1 =>
    match st with
    | JState.expectVal cs stack =>
      match skipJWS cs with
      | '"' :: r =>
        match parseJStr r with
        | Except.ok (s, r2) => jsonMach f (JState.haveVal (JVal.jstr s) r2 stack)
        | Except.error e => Except.error e
      | '[' :: r =>
        match skipJWS r with
        | ']' :: r2 => jsonMach f (JState.haveVal (JVal.jarr []) r2 stack)
        | r2 => jsonMach f (JState.expectVal r2 (JFrame.farr [] :: stack))
      | '\x7b' :: r =>
        match skipJWS r with
        | '\x7d' :: r2 => jsonMach f (JState.haveVal (JVal.jobj []) r2 stack)
        | '"' :: r2 =>
          match parseJStr r2 with
          | Except.ok (k, r3) =>
            match skipJWS r3 with
            | ':' :: r4 => jsonMach f (JState.expectVal r4 (JFrame.fobj [] k :: stack))
            | _ => Except.error "Expecting colon delimiter"
          | Except.error e => Except.error e
        | _ => Except.error "Expecting property name enclosed in double quotes"
      | _ => Except.error "Expecting value"
    | JState.haveVal v cs stack =>
      match stack with
      | [] => Except.ok (v, cs)
      | JFrame.farr acc :: st2 =>
        match skipJWS cs with
        | ',' :: r => jsonMach f (JState.expectVal r (JFrame.farr (v :: acc) :: st2))
        | ']' :: r => jsonMach f (JState.haveVal (JVal.jarr ((v :: acc).reverse)) r st2)
        | _ => Except.error "Expecting comma or closing bracket delimiter"
      | JFrame.fobj acc k :: st2 =>
        match skipJWS cs with
        | ',' :: r =>
          match skipJWS r with
          | '"' :: r2 =>
            match parseJStr r2 with
            | Except.ok (k2, r3) =>
              match skipJWS r3 with
              | ':' :: r4 =>
                jsonMach f (JState.expectVal r4 (JFrame.fobj (acc ++ [(k, v)]) k2 :: st2))
              | _ => Except.error "Expecting colon delimiter"
            | Except.error e => Except.error e
          | _ => Except.error "Expecting property name enclosed in double quotes"
        | '\x7d' :: r => jsonMach f (JState.haveVal (JVal.jobj (acc ++ [(k, v)])) r st2)
        | _ => Except.error "Expecting comma or closing brace delimiter"

/-- json.loads on the span the regex matched: parse one value, allow
only trailing whitespace. -/
def jsonParse (cs : List Char) : Except String JVal :=
  match jsonMach (cs.length + 2) (JState.expectVal cs []) with
  | Except.ok (v, rem) =>
    if (skipJWS rem).isEmpty then Except.ok v else Except.error "Extra data"
  | Except.error e => Except.error e

/-- The six keys the validation loop on app.py lines 61-64 requires, in
source order; note the three spec-optional keys are all required here. -/
def requiredSixKeys : List String :=
  ["subject", "subject_type", "relation", "object", "object_type", "context"]

/-- Python substring membership (needle occurs contiguously in hay). -/
def substrIn (needle : List Char) : List Char → Bool
  | [] => needle.isEmpty
  | c :: t => needle.isPrefixOf (c :: t) || substrIn needle t

/-- Python `key in t` for a decoded JSON value: key membership for
dicts, substring test for strings, element membership for lists. -/
def keyInJVal (key : String) (v : JVal) : Bool :=
  match v with
  | JVal.jobj kvs => kvs.any (fun kv => kv.1 == key)
  | JVal.jstr s => substrIn key.data s.data
  | JVal.jarr xs => xs.any (fun x => match x with | JVal.jstr s2 => s2 == key | _ => false)

/-- First required key missing from the object, in key order. -/
def findMissingKey (v : JVal) : Option String :=
  requiredSixKeys.find? (fun k => !(keyInJVal k v))

/-- The validation loop (app.py lines 61-64): the first missing key of
the first deficient object raises ValueError, aborting the whole batch. -/
def validateKeys : List JVal → Except String Unit
  | [] => Except.ok ()
  | t :: rest =>
    match findMissingKey t with
    | some k => Except.error ("Missing key: " ++ k)
    | none => validateKeys rest

/-- Lookup of a string field of a decoded object (duplicate keys: the
last value wins, as in a Python dict built from JSON). -/
def getStrField (kvs : List (String × JVal)) (k : String) : Option String :=
  match kvs.reverse.find? (fun kv => kv.1 == k) with
  | some kv =>
    match kv.2 with
    | JVal.jstr s => some s
    | _ => none
  | none => none

/-- Representation bridge: a decoded JSON object as the triple dict
consumed by build_graph (field values are strings per the data model). -/
def jvalToDict (v : JVal) : TripleDict :=
  match v with
  | JVal.jobj kvs =>
    TripleDict.mk (getStrField kvs "subject") (getStrField kvs "subject_type")
      (getStrField kvs "relation") (getStrField kvs "object")
      (getStrField kvs "object_type") (getStrField kvs "context")
  | _ => TripleDict.mk none none none none none none

/-- The try-block of parse_relations (app.py lines 52-65): regex search
starting at position 16, json.loads on the matched span, then key
validation; the error value is the message of the raised exception.  (The
non-array branch is unreachable: a matched span always starts with an
opening bracket.) -/
def parse_relations_inner (s : String) : Except String (List JVal) :=
  match reSearch16 s.data with
  | none => Except.error "No JSON array found in the response."
  | some matched =>
    match jsonParse matched with
    | Except.error e => Except.error e
    | Except.ok v =>
      match v with
      | JVal.jarr items =>
        match validateKeys items with
        | Except.ok _ => Except.ok items
        | Except.error e => Except.error e
      | _ => Except.error "Decoded JSON is not a list"

/-- parse_relations (app.py lines 51-68): on success, the decoded
triple objects and no error message; on any exception, `st.error` shows
one message built from the exception and the function returns the empty
list. -/
def parse_relations (response_text : String) : List TripleDict × List String :=
  match parse_relations_inner response_text with
  | Except.ok items => (items.map jvalToDict, [])
  | Except.error e => ([], ["Failed to parse enriched JSON: " ++ e])

/-- Python str.strip() on ASCII text: drop leading and trailing
whitespace (as a character list, which keeps the model computable). -/
def pyStrip (s : String) : List Char :=
  (skipWS ((skipWS s.data).reverse)).reverse

/-- User-visible outcomes of the button handler. -/
inductive Outcome where
  | warnNoContent : Outcome
  | warnNoRelationships : Outcome
  | rendered : Graph → Outcome
  | raised : String → Outcome
deriving DecidableEq, Repr

/-- The Generate Knowledge Graph button handler (app.py lines 148-161),
with the Gemini reply supplied as `response`; `raised` models an
uncaught exception escaping from build_graph. -/
def generate_handler (content response : String) : Outcome :=
  if pyStrip content = [] then Outcome.warnNoContent
  else
    match parse_relations response with
    | (triples, _) =>
      if triples.isEmpty then Outcome.warnNoRelationships
      else
        match build_graph triples with
        | Except.ok g => Outcome.rendered g
        | Except.error e => Outcome.raised e

/-! Concrete inputs used by the claims (braces in string literals are
written with hexadecimal escapes). -/

/-- Triple (A, r1, B) with full metadata. -/
def tripleAB1 : TripleDict :=
  TripleDict.mk (some "A") (some "T") (some "r1") (some "B") (some "T") (some "c1")

/-- Triple (A, r2, B) with full metadata. -/
def tripleAB2 : TripleDict :=
  TripleDict.mk (some "A") (some "T") (some "r2") (some "B") (some "T") (some "c2")

/-- The graph the code builds from [tripleAB1, tripleAB2]. -/
def cgraphAB : Graph :=
  Graph.mk
    [("A", [("title", "T: A"), ("group", "T")]),
     ("B", [("title", "T: B"), ("group", "T")])]
    [("A", "B", [("label", "r2"), ("title", "c2")])]

/-- A 16-character noise prefix, then an array of two objects, the
second missing the `object` key while carrying every other key. -/
def c2input : String :=
  "0123456789abcdef[\x7b\"subject\": \"A\", \"subject_type\": \"T\", \"relation\": \"r\", \"object\": \"B\", \"object_type\": \"T\", \"context\": \"c\"\x7d, \x7b\"subject\": \"C\", \"subject_type\": \"T\", \"relation\": \"r2\", \"object_type\": \"T\", \"context\": \"c2\"\x7d]"

/-- Short leading prose, then a fully well-formed single-triple array
(all six keys, one line): the array starts at index 6, before the
position-16 scan start. -/
def c3input : String :=
  "Sure: [\x7b\"subject\": \"Paris\", \"subject_type\": \"City\", \"relation\": \"capital of\", \"object\": \"France\", \"object_type\": \"Country\", \"context\": \"Paris is the capital of France.\"\x7d]"

/-- The same well-formed triple array preceded by 18 characters of
prose, so that the position-16 scan still reaches it. -/
def c3okInput : String :=
  "Here is the JSON: [\x7b\"subject\": \"Paris\", \"subject_type\": \"City\", \"relation\": \"capital of\", \"object\": \"France\", \"object_type\": \"Country\", \"context\": \"Paris is the capital of France.\"\x7d]"

/-- A 16-character noise prefix, then one object missing only the
spec-optional `context` key. -/
def c5input : String :=
  "0123456789abcdef[\x7b\"subject\": \"A\", \"subject_type\": \"T\", \"relation\": \"r\", \"object\": \"B\", \"object_type\": \"T\"\x7d]"

/-- A 16-character noise prefix, then an empty array. -/
def c8input : String := "0123456789abcdef[]"

/-! Generic list helpers. -/

theorem find?_map_comm {α : Type} (l : List α) (f : α → α) (p : α → Bool)
    (hpres : ∀ x, p (f x) = p x) :
    (l.map f).find? p = (l.find? p).map f := by
  induction l with
  | nil => rfl
  | cons hd tl ih =>
    cases hm : p hd with
    | true =>
      rw [List.map_cons, List.find?_cons_of_pos _ (by rw [hpres]; exact hm),
        List.find?_cons_of_pos _ hm]
      rfl
    | false =>
      rw [List.map_cons, List.find?_cons_of_neg _ (by rw [hpres]; exact hm ▸ by simp [hm]),
        List.find?_cons_of_neg _ (by simp [hm]), ih]

theorem map_map_key {α κ : Type} (l : List α) (f : α → α) (key : α → κ)
    (hf : ∀ x, key (f x) = key x) :
    (l.map f).map key = l.map key := by
  induction l with
  | nil => rfl
  | cons hd tl ih => simp [hf, ih]

theorem find?_eq_none_of_any_eq_false {α : Type} {l : List α} {p : α → Bool}
    (h : l.any p = false) : l.find? p = none := by
  refine List.find?_eq_none.mpr ?_
  intro x hx hpx
  rw [List.any_eq_true.mpr ⟨x, hx, hpx⟩] at h
  cases h

/-! Lemmas about the attribute-dictionary model. -/

theorem getAttr_setAttr_self (a : Attrs) (k v : String) :
    getAttr (setAttr a k v) k = some v := by
  unfold setAttr
  cases h : a.any (fun kv => kv.1 == k) with
  | true =>
    unfold getAttr
    rw [if_pos rfl, find?_map_comm _ _ _ (fun x => by cases hx : (x.1 == k) <;> simp [hx])]
    obtain ⟨q, hq⟩ := Option.isSome_iff_exists.mp
      (List.find?_isSome.mpr (List.any_eq_true.mp h))
    have h1 : q.1 = k := by simpa using List.find?_some hq
    rw [hq]
    simp [h1]
  | false =>
    unfold getAttr
    rw [if_neg Bool.false_ne_true, List.find?_append,
      find?_eq_none_of_any_eq_false h]
    simp

theorem getAttr_setAttr_ne (a : Attrs) (k v m : String) (h : m ≠ k) :
    getAttr (setAttr a k v) m = getAttr a m := by
  unfold setAttr
  cases hany : a.any (fun kv => kv.1 == k) with
  | true =>
    unfold getAttr
    rw [if_pos rfl, find?_map_comm _ _ _ (fun x => by cases hx : (x.1 == k) <;> simp [hx])]
    cases hq : a.find? (fun kv => kv.1 == m) with
    | none => rfl
    | some q =>
      have h1 : q.1 = m := by simpa using List.find?_some hq
      have h2 : q.1 ≠ k := by rw [h1]; exact h
      simp [h2]
  | false =>
    unfold getAttr
    rw [if_neg Bool.false_ne_true, List.find?_append]
    have h2 : ((k, v).1 == m) = false := beq_eq_false_iff_ne.mpr (fun hh => h hh.symm)
    simp [h2, Option.or_none]

theorem updateAttrs_pair (a : Attrs) (k1 v1 k2 v2 : String) :
    updateAttrs a [(k1, v1), (k2, v2)] = setAttr (setAttr a k1 v1) k2 v2 := rfl

theorem getAttr_updateAttrs_pair_fst (a : Attrs) (k1 v1 k2 v2 : String) (h : k1 ≠ k2) :
    getAttr (updateAttrs a [(k1, v1), (k2, v2)]) k1 = some v1 := by
  rw [updateAttrs_pair, getAttr_setAttr_ne _ _ _ _ h, getAttr_setAttr_self]

theorem getAttr_updateAttrs_pair_snd (a : Attrs) (k1 v1 k2 v2 : String) :
    getAttr (updateAttrs a [(k1, v1), (k2, v2)]) k2 = some v2 := by
  rw [updateAttrs_pair, getAttr_setAttr_self]

theorem getAttr_pairlist_fst (k1 v1 k2 v2 : String) :
    getAttr [(k1, v1), (k2, v2)] k1 = some v1 := by
  simp [getAttr]

theorem getAttr_pairlist_snd (k1 v1 k2 v2 : String) (h : (k1 == k2) = false) :
    getAttr [(k1, v1), (k2, v2)] k2 = some v2 := by
  simp [getAttr, h]

/-! Lemmas about the DiGraph node operations. -/

theorem any_key_iff (l : List (String × Attrs)) (n : String) :
    l.any (fun p => p.1 == n) = true ↔ n ∈ l.map Prod.fst := by
  simp only [List.any_eq_true, List.mem_map, beq_iff_eq]

theorem addNode_edges (g : Graph) (n : String) (a : Attrs) :
    (addNode g n a).edges = g.edges := by
  unfold addNode
  split <;> rfl

theorem nodeNames_addNode (g : Graph) (n : String) (a : Attrs) :
    nodeNames (addNode g n a)
      = if n ∈ nodeNames g then nodeNames g else nodeNames g ++ [n] := by
  unfold addNode nodeNames
  cases h : g.nodes.any (fun p => p.1 == n) with
  | true =>
    have hm : n ∈ g.nodes.map Prod.fst := (any_key_iff _ _).mp h
    rw [if_pos rfl, if_pos hm]
    exact map_map_key _ _ _ (fun x => by cases hx : (x.1 == n) <;> simp [hx])
  | false =>
    have hm : n ∉ g.nodes.map Prod.fst := by
      intro hmem
      rw [(any_key_iff _ _).mpr hmem] at h
      cases h
    rw [if_neg Bool.false_ne_true, if_neg hm]
    simp

theorem mem_nodeNames_addNode (g : Graph) (n : String) (a : Attrs) (m : String) :
    m ∈ nodeNames (addNode g n a) ↔ m ∈ nodeNames g ∨ m = n := by
  rw [nodeNames_addNode]
  by_cases h : n ∈ nodeNames g
  · rw [if_pos h]
    constructor
    · exact Or.inl
    · rintro (hm | rfl)
      · exact hm
      · exact h
  · rw [if_neg h]
    simp

theorem nodup_nodeNames_addNode (g : Graph) (n : String) (a : Attrs)
    (h : (nodeNames g).Nodup) : (nodeNames (addNode g n a)).Nodup := by
  rw [nodeNames_addNode]
  by_cases hm : n ∈ nodeNames g
  · rwa [if_pos hm]
  · rw [if_neg hm]
    simp [List.nodup_append, h, hm]

theorem nodeGroup_addNode_self (g : Graph) (n x y : String) :
    nodeGroup (addNode g n [("title", x), ("group", y)]) n = some y := by
  unfold addNode nodeGroup
  cases h : g.nodes.any (fun p => p.1 == n) with
  | true =>
    rw [if_pos rfl, find?_map_comm _ _ _ (fun p => by cases hx : (p.1 == n) <;> simp [hx])]
    obtain ⟨q, hq⟩ := Option.isSome_iff_exists.mp
      (List.find?_isSome.mpr (List.any_eq_true.mp h))
    have h1 : q.1 = n := by simpa using List.find?_some hq
    rw [hq]
    simp [h1, getAttr_updateAttrs_pair_snd]
  | false =>
    rw [if_neg Bool.false_ne_true, List.find?_append, find?_eq_none_of_any_eq_false h]
    simp only [Option.none_or]
    rw [List.find?_cons_of_pos _ (by simp)]
    exact getAttr_pairlist_snd _ _ _ _ (by decide)

theorem nodeGroup_addNode_ne (g : Graph) (n : String) (a : Attrs) (m : String)
    (h : m ≠ n) : nodeGroup (addNode g n a) m = nodeGroup g m := by
  unfold addNode nodeGroup
  cases hany : g.nodes.any (fun p => p.1 == n) with
  | true =>
    rw [if_pos rfl, find?_map_comm _ _ _ (fun p => by cases hx : (p.1 == n) <;> simp [hx])]
    cases hq : g.nodes.find? (fun p => p.1 == m) with
    | none => rfl
    | some q =>
      have h1 : q.1 = m := by simpa using List.find?_some hq
      have h2 : q.1 ≠ n := by rw [h1]; exact h
      simp [h2]
  | false =>
    rw [if_neg Bool.false_ne_true, List.find?_append]
    have h2 : (((n, a) : String × Attrs).1 == m) = false :=
      beq_eq_false_iff_ne.mpr (fun hh => h hh.symm)
    simp [h2, Option.or_none]

/-! Lemmas about the DiGraph edge operations. -/

theorem any_edgeKey_iff (l : List (String × String × Attrs)) (u v : String) :
    l.any (fun e => e.1 == u && e.2.1 == v) = true ↔ (u, v) ∈ l.map (fun e => (e.1, e.2.1)) := by
  simp only [List.any_eq_true, List.mem_map, Bool.and_eq_true, beq_iff_eq, Prod.ext_iff]

theorem ensureNode_nodes_of_mem (g : Graph) (n : String) (h : n ∈ nodeNames g) :
    ensureNode g n = g := by
  unfold ensureNode
  rw [if_pos ((any_key_iff _ _).mpr h)]

theorem ensureNode_edges (g : Graph) (n : String) : (ensureNode g n).edges = g.edges := by
  unfold ensureNode
  split <;> rfl

theorem updateEdgeIn_nodes (g : Graph) (u v : String) (a : Attrs) :
    (updateEdgeIn g u v a).nodes = g.nodes := by
  unfold updateEdgeIn
  split <;> rfl

theorem addEdge_nodes_of_mem (g : Graph) (u v : String) (a : Attrs)
    (hu : u ∈ nodeNames g) (hv : v ∈ nodeNames g) :
    (addEdge g u v a).nodes = g.nodes := by
  unfold addEdge
  rw [ensureNode_nodes_of_mem g u hu, ensureNode_nodes_of_mem g v hv, updateEdgeIn_nodes]

theorem edgeKeys_updateEdgeIn (g : Graph) (u v : String) (a : Attrs) :
    edgeKeys (updateEdgeIn g u v a)
      = if (u, v) ∈ edgeKeys g then edgeKeys g else edgeKeys g ++ [(u, v)] := by
  unfold updateEdgeIn edgeKeys
  cases h : g.edges.any (fun e => e.1 == u && e.2.1 == v) with
  | true =>
    rw [if_pos rfl, if_pos ((any_edgeKey_iff _ _ _).mp h)]
    exact map_map_key _ _ _ (fun e => by cases hx : (e.1 == u && e.2.1 == v) <;> simp [hx])
  | false =>
    have hm : (u, v) ∉ g.edges.map (fun e => (e.1, e.2.1)) := by
      intro hmem
      rw [(any_edgeKey_iff _ _ _).mpr hmem] at h
      cases h
    rw [if_neg Bool.false_ne_true, if_neg hm]
    simp

theorem edgeKeys_ensureNode (g : Graph) (n : String) :
    edgeKeys (ensureNode g n) = edgeKeys g := by
  unfold edgeKeys
  rw [ensureNode_edges]

theorem edgeKeys_addNode (g : Graph) (n : String) (a : Attrs) :
    edgeKeys (addNode g n a) = edgeKeys g := by
  unfold edgeKeys
  rw [addNode_edges]

theorem edgeKeys_addEdge (g : Graph) (u v : String) (a : Attrs) :
    edgeKeys (addEdge g u v a)
      = if (u, v) ∈ edgeKeys g then edgeKeys g else edgeKeys g ++ [(u, v)] := by
  unfold addEdge
  rw [edgeKeys_updateEdgeIn, edgeKeys_ensureNode, edgeKeys_ensureNode]

theorem nodup_edgeKeys_addEdge (g : Graph) (u v : String) (a : Attrs)
    (h : (edgeKeys g).Nodup) : (edgeKeys (addEdge g u v a)).Nodup := by
  rw [edgeKeys_addEdge]
  by_cases hm : (u, v) ∈ edgeKeys g
  · rwa [if_pos hm]
  · rw [if_neg hm]
    simp [List.nodup_append, h, hm]

theorem nodup_edgeKeys_addNode (g : Graph) (n : String) (a : Attrs)
    (h : (edgeKeys g).Nodup) : (edgeKeys (addNode g n a)).Nodup := by
  rwa [edgeKeys_addNode]

theorem mem_edgeKeys_addEdge (g : Graph) (u v : String) (a : Attrs) (k : String × String) :
    k ∈ edgeKeys (addEdge g u v a) ↔ k ∈ edgeKeys g ∨ k = (u, v) := by
  rw [edgeKeys_addEdge]
  by_cases h : (u, v) ∈ edgeKeys g
  · rw [if_pos h]
    constructor
    · exact Or.inl
    · rintro (hm | rfl)
      · exact hm
      · exact h
  · rw [if_neg h]
    simp

theorem updateEdgeIn_edges_of_not_any (g : Graph) (u v : String) (a : Attrs)
    (h : g.edges.any (fun e => e.1 == u && e.2.1 == v) = false) :
    (updateEdgeIn g u v a).edges = g.edges ++ [(u, v, a)] := by
  unfold updateEdgeIn
  rw [if_neg (by rw [h]; exact Bool.false_ne_true)]

/-! The main invariant of the build loop. -/

theorem lastGroupWrite_cons (t : TripleDict) (rest : List TripleDict) (m s o : String)
    (hs : t.subject = some s) (ho : t.object = some o) :
    lastGroupWrite (t :: rest) m
      = (lastGroupWrite rest m).or
          (if m = o then some (t.object_type.getD "Entity")
           else if m = s then some (t.subject_type.getD "Entity") else none) := by
  unfold lastGroupWrite
  rw [List.flatMap_cons, List.reverse_append, List.find?_append, Option.map_or']
  congr 1
  have hB : (groupWrites t).reverse
      = [(o, t.object_type.getD "Entity"), (s, t.subject_type.getD "Entity")] := by
    simp [groupWrites, hs, ho]
  rw [hB]
  by_cases hmo : m = o
  · rw [List.find?_cons_of_pos _ (by simp [hmo]), if_pos hmo]
    rfl
  · rw [List.find?_cons_of_neg _ (by simp; exact fun hh => hmo hh.symm), if_neg hmo]
    by_cases hms : m = s
    · rw [List.find?_cons_of_pos _ (by simp [hms]), if_pos hms]
      rfl
    · rw [List.find?_cons_of_neg _ (by simp; exact fun hh => hms hh.symm), if_neg hms]
      rfl

theorem buildGo_spec (ts : List TripleDict) :
    ∀ g : Graph, requiredPre ts → (nodeNames g).Nodup → (edgeKeys g).Nodup →
    ∃ gg, buildGo ts g = Except.ok gg ∧
      (nodeNames gg).Nodup ∧
      (edgeKeys gg).Nodup ∧
      (∀ m, m ∈ nodeNames gg ↔ m ∈ mentionedNames ts ∨ m ∈ nodeNames g) ∧
      (∀ m, nodeGroup gg m = (lastGroupWrite ts m).or (nodeGroup g m)) ∧
      (∀ k, k ∈ edgeKeys gg ↔ k ∈ edgePairs ts ∨ k ∈ edgeKeys g) := by
  induction ts with
  | nil =>
    intro g hpre hnd hed
    refine ⟨g, rfl, hnd, hed, ?_, ?_, ?_⟩
    · intro m
      simp [mentionedNames]
    · intro m
      simp [lastGroupWrite]
    · intro k
      simp [edgePairs]
  | cons t rest ih =>
    intro g hpre hnd hed
    obtain ⟨hsub, hobj, hrel⟩ := hpre t (List.mem_cons_self t rest)
    obtain ⟨s, hs⟩ := Option.isSome_iff_exists.mp hsub
    obtain ⟨o, ho⟩ := Option.isSome_iff_exists.mp hobj
    obtain ⟨r, hr⟩ := Option.isSome_iff_exists.mp hrel
    have hpre2 : requiredPre rest := fun x hx => hpre x (List.mem_cons_of_mem _ hx)
    have hstep : buildStep g t
        = Except.ok (addEdge
            (addNode
              (addNode g s
                [("title", t.subject_type.getD "Entity" ++ ": " ++ s),
                 ("group", t.subject_type.getD "Entity")])
              o
              [("title", t.object_type.getD "Entity" ++ ": " ++ o),
               ("group", t.object_type.getD "Entity")])
            s o [("label", r), ("title", t.context.getD "")]) := by
      unfold buildStep
      rw [hs, ho, hr]
    set g1 := addNode g s
      [("title", t.subject_type.getD "Entity" ++ ": " ++ s),
       ("group", t.subject_type.getD "Entity")] with hg1
    set g2 := addNode g1 o
      [("title", t.object_type.getD "Entity" ++ ": " ++ o),
       ("group", t.object_type.getD "Entity")] with hg2
    set g3 := addEdge g2 s o [("label", r), ("title", t.context.getD "")] with hg3
    have hsmem : s ∈ nodeNames g2 := by
      rw [hg2, mem_nodeNames_addNode]
      exact Or.inl ((mem_nodeNames_addNode g s _ s).mpr (Or.inr rfl))
    have homem : o ∈ nodeNames g2 := (mem_nodeNames_addNode g1 o _ o).mpr (Or.inr rfl)
    have hg3nodes : g3.nodes = g2.nodes := addEdge_nodes_of_mem g2 s o _ hsmem homem
    have hg3names : nodeNames g3 = nodeNames g2 := by
      unfold nodeNames
      rw [hg3nodes]
    have hg3group : ∀ m, nodeGroup g3 m = nodeGroup g2 m := by
      intro m
      unfold nodeGroup
      rw [hg3nodes]
    have hnd3 : (nodeNames g3).Nodup := by
      rw [hg3names, hg2, hg1]
      exact nodup_nodeNames_addNode _ _ _ (nodup_nodeNames_addNode _ _ _ hnd)
    have hed3 : (edgeKeys g3).Nodup := by
      rw [hg3]
      refine nodup_edgeKeys_addEdge _ _ _ _ ?_
      rw [hg2, edgeKeys_addNode, hg1, edgeKeys_addNode]
      exact hed
    obtain ⟨gg, hgo, hggnd, hgged, hggmem, hgggroup, hggpairs⟩ := ih g3 hpre2 hnd3 hed3
    refine ⟨gg, ?_, hggnd, hgged, ?_, ?_, ?_⟩
    · unfold buildGo
      rw [hstep]
      exact hgo
    · intro m
      rw [hggmem m, hg3names]
      have hmem2 : m ∈ nodeNames g2 ↔ (m ∈ nodeNames g ∨ m = s) ∨ m = o := by
        rw [hg2, mem_nodeNames_addNode, hg1, mem_nodeNames_addNode]
      rw [hmem2]
      have hmc : m ∈ mentionedNames (t :: rest)
          ↔ (m = s ∨ m = o) ∨ m ∈ mentionedNames rest := by
        simp [mentionedNames, hs, ho, or_assoc]
      rw [hmc]
      constructor
      · rintro (h1 | (h1 | h1) | h1)
        · exact Or.inl (Or.inr h1)
        · exact Or.inr h1
        · exact Or.inl (Or.inl (Or.inl h1))
        · exact Or.inl (Or.inl (Or.inr h1))
      · rintro (((h1 | h1) | h1) | h1)
        · exact Or.inr (Or.inl (Or.inr h1))
        · exact Or.inr (Or.inr h1)
        · exact Or.inl h1
        · exact Or.inr (Or.inl (Or.inl h1))
    · intro m
      rw [hgggroup m, hg3group m,
        lastGroupWrite_cons t rest m s o hs ho, Option.or_assoc]
      congr 1
      by_cases hmo : m = o
      · rw [if_pos hmo, hg2, hmo, nodeGroup_addNode_self, Option.or_some]
      · rw [if_neg hmo, hg2, nodeGroup_addNode_ne _ _ _ _ hmo]
        by_cases hms : m = s
        · rw [if_pos hms, hg1, hms, nodeGroup_addNode_self, Option.or_some]
        · rw [if_neg hms, hg1, nodeGroup_addNode_ne _ _ _ _ hms, Option.none_or]
    · intro k
      rw [hggpairs k]
      have hk3 : k ∈ edgeKeys g3 ↔ k ∈ edgeKeys g ∨ k = (s, o) := by
        rw [hg3, mem_edgeKeys_addEdge, hg2, edgeKeys_addNode, hg1, edgeKeys_addNode]
      rw [hk3]
      have hpc : k ∈ edgePairs (t :: rest) ↔ k = (s, o) ∨ k ∈ edgePairs rest := by
        simp [edgePairs, hs, ho]
      rw [hpc]
      constructor
      · rintro (h1 | h1 | h1)
        · exact Or.inl (Or.inr h1)
        · exact Or.inr h1
        · exact Or.inl (Or.inl h1)
      · rintro ((h1 | h1) | h1)
        · exact Or.inr (Or.inr h1)
        · exact Or.inl h1
        · exact Or.inr (Or.inl h1)

/-! From the loop invariant to build_graph. -/

theorem build_graph_spec (ts : List TripleDict) (hpre : requiredPre ts) :
    ∃ g, build_graph ts = Except.ok g ∧
      (nodeNames g).Nodup ∧ (edgeKeys g).Nodup ∧
      (∀ m, m ∈ nodeNames g ↔ m ∈ mentionedNames ts) ∧
      (∀ m, nodeGroup g m = lastGroupWrite ts m) ∧
      (∀ k, k ∈ edgeKeys g ↔ k ∈ edgePairs ts) := by
  obtain ⟨g, h1, h2, h3, h4, h5, h6⟩ := buildGo_spec ts Graph.empty hpre
    (by simp [nodeNames, Graph.empty]) (by simp [edgeKeys, Graph.empty])
  refine ⟨g, h1, h2, h3, ?_, ?_, ?_⟩
  · intro m
    rw [h4 m]
    simp [nodeNames, Graph.empty]
  · intro m
    rw [h5 m, show nodeGroup Graph.empty m = none from rfl, Option.or_none]
  · intro k
    rw [h6 k]
    simp [edgeKeys, Graph.empty]

theorem nodup_mem_singleton {A : Type} {l : List A} {a : A} (hnd : l.Nodup)
    (hm : ∀ m, m ∈ l ↔ m = a) : l = [a] := by
  cases l with
  | nil => exact absurd ((hm a).mpr rfl) (List.not_mem_nil a)
  | cons hd tl =>
    have hhd : hd = a := (hm hd).mp (List.mem_cons_self hd tl)
    subst hhd
    cases tl with
    | nil => rfl
    | cons hd2 tl2 =>
      have h2 : hd2 = hd := (hm hd2).mp (List.mem_cons_of_mem _ (List.mem_cons_self _ _))
      subst h2
      exact absurd (List.mem_cons_self hd2 tl2) (List.nodup_cons.mp hnd).1

/-- Single-triple run of build_graph, fully unfolded. -/
theorem build_single (t : TripleDict) (s o r : String)
    (hs : t.subject = some s) (ho : t.object = some o) (hr : t.relation = some r) :
    build_graph [t] = Except.ok (addEdge
      (addNode
        (addNode Graph.empty s
          [("title", t.subject_type.getD "Entity" ++ ": " ++ s),
           ("group", t.subject_type.getD "Entity")])
        o
        [("title", t.object_type.getD "Entity" ++ ": " ++ o),
         ("group", t.object_type.getD "Entity")])
      s o [("label", r), ("title", t.context.getD "")]) := by
  have hstep : buildStep Graph.empty t = Except.ok (addEdge
      (addNode
        (addNode Graph.empty s
          [("title", t.subject_type.getD "Entity" ++ ": " ++ s),
           ("group", t.subject_type.getD "Entity")])
        o
        [("title", t.object_type.getD "Entity" ++ ": " ++ o),
         ("group", t.object_type.getD "Entity")])
      s o [("label", r), ("title", t.context.getD "")]) := by
    unfold buildStep
    rw [hs, ho, hr]
  show buildGo [t] Graph.empty = _
  unfold buildGo
  rw [hstep]
  rfl

/-- The edge list of a single-triple build. -/
theorem build_single_edges (t : TripleDict) (s o r : String)
    (hs : t.subject = some s) (ho : t.object = some o) (hr : t.relation = some r) :
    ∃ g, build_graph [t] = Except.ok g ∧
      g.edges = [(s, o, [("label", r), ("title", t.context.getD "")])] := by
  refine ⟨_, build_single t s o r hs ho hr, ?_⟩
  unfold addEdge
  rw [updateEdgeIn_edges_of_not_any]
  · rw [ensureNode_edges, ensureNode_edges, addNode_edges, addNode_edges]
    rfl
  · rw [ensureNode_edges, ensureNode_edges, addNode_edges, addNode_edges]
    rfl

/-- Any object missing one of the six keys makes the validation loop
abort with an error (and hence the whole batch is discarded). -/
theorem validateKeys_error_of_missing :
    ∀ items : List JVal, (∃ t ∈ items, findMissingKey t ≠ none) →
      ∃ e, validateKeys items = Except.error e := by
  intro items
  induction items with
  | nil =>
    rintro ⟨t, ht, _⟩
    cases ht
  | cons hd tl ih =>
    rintro ⟨t, ht, hmiss⟩
    cases hfm : findMissingKey hd with
    | some k =>
      refine ⟨"Missing key: " ++ k, ?_⟩
      unfold validateKeys
      rw [hfm]
    | none =>
      rcases List.mem_cons.mp ht with rfl | htl
      · exact absurd hfm hmiss
      · obtain ⟨e, he⟩ := ih ⟨t, htl, hmiss⟩
        refine ⟨e, ?_⟩
        unfold validateKeys
        rw [hfm]
        exact he
/-! Claim theorems. -/

/-- Claim C1, counterexample: on [(A,r1,B), (A,r2,B)] the code builds 2
nodes but only 1 edge — the second add_edge on the same ordered pair
overwrote the first, so the label r1 is lost and the edge count is not
2: networkx.DiGraph is a simple directed graph, not a multigraph. -/
theorem c1_counterexample :
    build_graph [tripleAB1, tripleAB2] = Except.ok cgraphAB ∧
    cgraphAB.nodes.length = 2 ∧
    cgraphAB.edges.length = 1 ∧
    cgraphAB.edges.length ≠ 2 ∧
    edgeData cgraphAB "A" "B" = some (some "r2", some "c2") := by
  refine ⟨by decide, by decide, by decide, by decide, by decide⟩

/-- Claim C1 (amended): building from [(A,r1,B), (A,r2,B)] yields
exactly 2 nodes and exactly 1 edge, whose attributes are those of the
last write (label r2, title c2); in general edges between the same
ordered entity pair collapse into one — for every valid input the edge
(source, target) pairs of the built graph are pairwise distinct, so
neither differently-labelled parallel edges nor identical duplicate
triples ever produce a second edge. -/
theorem c1_theorem :
    (build_graph [tripleAB1, tripleAB2] = Except.ok cgraphAB ∧
     cgraphAB.nodes.length = 2 ∧ cgraphAB.edges.length = 1 ∧
     edgeData cgraphAB "A" "B" = some (some "r2", some "c2")) ∧
    (∀ ts : List TripleDict, requiredPre ts →
      ∃ g, build_graph ts = Except.ok g ∧ (edgeKeys g).Nodup) := by
  constructor
  · exact ⟨by decide, by decide, by decide, by decide⟩
  · intro ts hpre
    obtain ⟨g, h1, _, h3, _, _, _⟩ := build_graph_spec ts hpre
    exact ⟨g, h1, h3⟩

/-- Claim C1, witness: the duplicated identical triple [(A,r1,B),
(A,r1,B)] builds successfully with pairwise-distinct edge pairs. -/
theorem c1_witness :
    ∃ g, build_graph [tripleAB1, tripleAB1] = Except.ok g ∧ (edgeKeys g).Nodup :=
  c1_theorem.2 [tripleAB1, tripleAB1] (by decide)

/-- Claim C2, counterexample: for an array whose second object is
missing only the `object` key (its sibling being fully well-formed),
parse_relations returns zero triples together with one issue — the
well-formed sibling is discarded, contradicting "never zero triples". -/
theorem c2_counterexample :
    parse_relations c2input
      = ([], ["Failed to parse enriched JSON: Missing key: object"]) := by
  decide

/-- Claim C2 (amended): an object missing a required key does not get
dropped individually — it aborts the whole batch: whenever any decoded
object misses one of the six checked keys the validation loop raises,
and parse_relations then returns zero triples plus the single recorded
issue, discarding every well-formed sibling. -/
theorem c2_theorem :
    (∀ items : List JVal, (∃ t ∈ items, findMissingKey t ≠ none) →
      ∃ e, validateKeys items = Except.error e) ∧
    parse_relations c2input
      = ([], ["Failed to parse enriched JSON: Missing key: object"]) := by
  constructor
  · exact validateKeys_error_of_missing
  · decide

/-- Claim C2, witness: validation of a singleton batch holding an empty
object raises. -/
theorem c2_witness : ∃ e, validateKeys [JVal.jobj []] = Except.error e :=
  c2_theorem.1 [JVal.jobj []] ⟨JVal.jobj [], List.mem_singleton.mpr rfl, by decide⟩

/-- Claim C3: evaluating the code at the failing input — a fully
well-formed single-line triple array (all six keys) preceded by the
6-character noise prefix "Sure: " — yields zero triples and a parse
failure, because the search starts at index 16 (re.DOTALL passed as
`pos`) and never sees the array that begins at index 6. -/
theorem c3_theorem :
    parse_relations c3input
      = ([], ["Failed to parse enriched JSON: No JSON array found in the response."]) := by
  decide

/-- Claim C4: parse_relations is a total function of its input; on every
input it either succeeds with the decoded triples and no issue, or
produces zero triples together with exactly one issue carrying the
original exception text — no exception propagates out. -/
theorem c4_theorem :
    ∀ s : String,
      (∃ ts, parse_relations_inner s = Except.ok ts ∧
        parse_relations s = (ts.map jvalToDict, [])) ∨
      (∃ e, parse_relations_inner s = Except.error e ∧
        parse_relations s = ([], ["Failed to parse enriched JSON: " ++ e])) := by
  intro s
  cases h : parse_relations_inner s with
  | ok ts =>
    refine Or.inl ⟨ts, rfl, ?_⟩
    unfold parse_relations
    rw [h]
  | error e =>
    refine Or.inr ⟨e, rfl, ?_⟩
    unfold parse_relations
    rw [h]

/-- Claim C5, counterexample: a decoded object missing only the
spec-optional `context` key is not accepted with a defaulted context —
parse_relations drops the batch with a Missing key issue. -/
theorem c5_counterexample :
    parse_relations c5input
      = ([], ["Failed to parse enriched JSON: Missing key: context"]) := by
  decide

/-- Claim C5 (amended): build_graph itself does default absent optional
fields — subject_type and object_type default to "Entity" and context
to the empty string — but parse_relations requires all six keys, so a
decoded object missing an optional key is rejected (whole batch
dropped) before ever reaching build_graph. -/
theorem c5_theorem :
    (∀ s o r : String,
      ∃ g, build_graph [TripleDict.mk (some s) none (some r) (some o) none none]
          = Except.ok g ∧
        nodeGroup g s = some "Entity" ∧ nodeGroup g o = some "Entity" ∧
        edgeData g s o = some (some r, some "")) ∧
    parse_relations c5input
      = ([], ["Failed to parse enriched JSON: Missing key: context"]) := by
  constructor
  · intro s o r
    obtain ⟨g, hbg, hedges⟩ :=
      build_single_edges (TripleDict.mk (some s) none (some r) (some o) none none)
        s o r rfl rfl rfl
    obtain ⟨g2, hbg2, hnd, hed, hmem, hgr, hep⟩ :=
      build_graph_spec [TripleDict.mk (some s) none (some r) (some o) none none]
        (by
          intro x hx
          rw [List.mem_singleton] at hx
          subst hx
          exact ⟨rfl, rfl, rfl⟩)
    rw [hbg] at hbg2
    injection hbg2 with hgg
    subst hgg
    refine ⟨g, hbg, ?_, ?_, ?_⟩
    · rw [hgr s]
      unfold lastGroupWrite groupWrites
      by_cases h2 : o = s
      · subst h2
        simp
      · have hb : (o == s) = false := beq_eq_false_iff_ne.mpr h2
        simp [hb]
    · rw [hgr o]
      unfold lastGroupWrite groupWrites
      simp
    · unfold edgeData
      rw [hedges, List.find?_cons_of_pos _ (by simp)]
      rw [Option.map_some']
      rw [getAttr_pairlist_fst, getAttr_pairlist_snd _ _ _ _ (by decide)]
      rfl
  · decide

/-- Claim C6: within one build_graph call a node is created exactly
once per unique literal name string (the node-name list is duplicate
free, comparison being exact case-sensitive string equality), repeated
appearances merge into the existing node, and the final type attribute
of every name is the one of the last write to that name
(subject_type/object_type with default "Entity", last-write-wins). -/
theorem c6_theorem :
    ∀ ts : List TripleDict, requiredPre ts →
      ∃ g, build_graph ts = Except.ok g ∧
        (nodeNames g).Nodup ∧
        (∀ m, nodeGroup g m = lastGroupWrite ts m) := by
  intro ts hpre
  obtain ⟨g, h1, h2, _, _, h5, _⟩ := build_graph_spec ts hpre
  exact ⟨g, h1, h2, h5⟩

/-- Claim C6, witness: the two-triple list naming A and B twice builds
one node per name with the last-written types. -/
theorem c6_witness :
    ∃ g, build_graph [tripleAB1, tripleAB2] = Except.ok g ∧
      (nodeNames g).Nodup ∧
      (∀ m, nodeGroup g m = lastGroupWrite [tripleAB1, tripleAB2] m) :=
  c6_theorem [tripleAB1, tripleAB2] (by decide)

/-- Claim C7: a triple whose subject equals its object builds exactly
one node and exactly one self-loop edge from that entity to itself —
subject different from object is not enforced. -/
theorem c7_theorem :
    ∀ (t : TripleDict) (a r : String),
      t.subject = some a → t.object = some a → t.relation = some r →
      ∃ g, build_graph [t] = Except.ok g ∧
        nodeNames g = [a] ∧ edgeKeys g = [(a, a)] := by
  intro t a r hs ho hr
  have hpre : requiredPre [t] := by
    intro x hx
    rw [List.mem_singleton] at hx
    subst hx
    exact ⟨by rw [hs]; rfl, by rw [ho]; rfl, by rw [hr]; rfl⟩
  obtain ⟨g, h1, hnd, hed, hmem, _, hep⟩ := build_graph_spec [t] hpre
  refine ⟨g, h1, ?_, ?_⟩
  · apply nodup_mem_singleton hnd
    intro m
    rw [hmem m]
    simp [mentionedNames, hs, ho]
  · apply nodup_mem_singleton hed
    intro k
    rw [hep k]
    simp [edgePairs, hs, ho]

/-- Claim C7, witness: the self-loop triple (A, knows, A). -/
theorem c7_witness :
    ∃ g, build_graph
        [TripleDict.mk (some "A") (some "T") (some "knows") (some "A") (some "T") (some "c")]
        = Except.ok g ∧
      nodeNames g = ["A"] ∧ edgeKeys g = [("A", "A")] :=
  c7_theorem (TripleDict.mk (some "A") (some "T") (some "knows") (some "A") (some "T") (some "c"))
    "A" "knows" rfl rfl rfl

/-- Claim C8: the empty triple list builds the empty graph (0 nodes, 0
edges); whenever the parse stage produces zero triples on nonempty
content, the handler reports the No relationships found warning rather
than an error; and an empty decoded array is not itself a parse error —
it parses to zero triples with zero recorded issues. -/
theorem c8_theorem :
    (build_graph [] = Except.ok Graph.empty ∧
     Graph.empty.nodes.length = 0 ∧ Graph.empty.edges.length = 0) ∧
    (∀ content response : String, ¬ pyStrip content = [] →
      (parse_relations response).1 = [] →
      generate_handler content response = Outcome.warnNoRelationships) ∧
    parse_relations c8input = ([], []) := by
  refine ⟨⟨rfl, rfl, rfl⟩, ?_, by decide⟩
  intro content response hc hp
  unfold generate_handler
  rw [if_neg hc]
  cases hpr : parse_relations response with
  | mk ts errs =>
    rw [hpr] at hp
    have hts : ts = [] := hp
    subst hts
    rfl

/-- Claim C8, witness: nonempty content whose model reply parses to
zero triples makes the handler warn No relationships found. -/
theorem c8_witness :
    generate_handler "some text" "" = Outcome.warnNoRelationships :=
  c8_theorem.2.1 "some text" "" (by decide) (by decide)

/-- Claim C9: build_graph is total exactly under the precondition that
every dict has the subject, object and relation keys: under it the
build always succeeds, while the concrete dict lacking `object` raises
KeyError (and the optional keys, read via `.get`, can never fail). -/
theorem c9_theorem :
    (∀ ts : List TripleDict, requiredPre ts → ∃ g, build_graph ts = Except.ok g) ∧
    build_graph [TripleDict.mk (some "A") none (some "r") none none none]
      = Except.error "KeyError: object" := by
  constructor
  · intro ts hpre
    obtain ⟨g, h1, _, _, _, _, _⟩ := build_graph_spec ts hpre
    exact ⟨g, h1⟩
  · decide

/-- Claim C9, witness: a fully-keyed singleton input builds. -/
theorem c9_witness : ∃ g, build_graph [tripleAB1] = Except.ok g :=
  c9_theorem.1 [tripleAB1] (by decide)

/-- Claim C10: under the required-keys precondition, the node set of
the built graph is exactly the set of strings occurring as a subject or
an object of some input triple. -/
theorem c10_theorem :
    ∀ ts : List TripleDict, requiredPre ts →
      ∃ g, build_graph ts = Except.ok g ∧
        (∀ m, m ∈ nodeNames g ↔ ∃ t ∈ ts, t.subject = some m ∨ t.object = some m) := by
  intro ts hpre
  obtain ⟨g, h1, _, _, h4, _, _⟩ := build_graph_spec ts hpre
  refine ⟨g, h1, fun m => ?_⟩
  rw [h4 m]
  simp [mentionedNames, Option.mem_toList, Option.mem_def]

/-- Claim C10, witness: the nodes of the (A,r1,B) build are exactly the
mentioned names. -/
theorem c10_witness :
    ∃ g, build_graph [tripleAB1] = Except.ok g ∧
      (∀ m, m ∈ nodeNames g ↔
        ∃ t ∈ [tripleAB1], t.subject = some m ∨ t.object = some m) :=
  c10_theorem [tripleAB1] (by decide)
